import Mathlib

/-!
Verification of the `cpm` crash-prediction-model framework.

Shallow embedding of the core engine in `cpm/base/` (elements, validators,
references, operators, model façade) and of the concrete rural two-lane
segment model `cpm/hsm/rtl_seg/model.py`, together with theorems settling
the specification claims about them.

Python dictionaries are modelled as association lists or as functions
`String → Option V`; Python floats are modelled as real or rational numbers;
raising an exception is modelled with `Except`.
-/

namespace Cpm

/-! ## Layered evaluation (`LayerCollection.evaluate`, `Layer.evaluate`)

`LayerCollection.evaluate` (elements.py:193-203) starts from a copy of the
raw inputs and, for each layer in order, merges the layer's outputs into the
accumulated namespace.  `Layer.evaluate` (elements.py:346-353) builds a dict
comprehension `{element.name: element(**kwargs)}` where every element of the
layer is called with the same incoming namespace.  Element bodies are
modelled as total functions of the namespace. -/

/-- A namespace of keyword arguments: partial map from names to values. -/
abbrev NS (V : Type) := String → Option V

/-- One model element: a unique name and a pure function of the namespace
(the Python function wrapped by `FuncOperator`). -/
structure PElement (V : Type) where
  name : String
  fn : NS V → V

/-- Lookup in a Python dict built from a list of key/value pairs; a later
binding of the same key wins (dict-comprehension semantics), so the tail is
searched first. -/
def dictLookup {V : Type} : List (String × V) → String → Option V
  | [], _ => none
  | p :: rest, k =>
    match dictLookup rest k with
    | some v => some v
    | none => if p.1 = k then some p.2 else none

/-- `Layer.evaluate`: `{element.name: element(**kwargs) for element in unsorted}` —
every element is applied to the same incoming namespace. -/
def layerEval {V : Type} (l : List (PElement V)) (ns : NS V) : List (String × V) :=
  l.map (fun e => (e.name, e.fn ns))

/-- `{**evaluated, **layer_outputs}`: the layer's outputs override the
accumulated namespace. -/
def mergeNS {V : Type} (ns : NS V) (out : List (String × V)) : NS V :=
  fun k => match dictLookup out k with
    | some v => some v
    | none => ns k

/-- `LayerCollection.evaluate`: fold the layers, in declaration order, over
the initial namespace `{**kwargs}`. -/
def lcEvaluate {V : Type} (layers : List (List (PElement V))) (ns : NS V) : NS V :=
  layers.foldl (fun acc l => mergeNS acc (layerEval l acc)) ns

/-- All element names of a list of layers, in declaration order. -/
def lcNames {V : Type} (layers : List (List (PElement V))) : List String :=
  (layers.map (fun l => l.map (·.name))).flatten

/-! ## Validator engine (`cpm/base/validators.py`)

Python values handled by validators are modelled by `PVal` (numbers are
merged into one rational-valued constructor, since Python treats `3` and
`3.0` as equal and validator arithmetic coincides on ℚ; strings stand for
the non-numeric strings used by the HSM models, so `float()`/`int()` of a
string is modelled as failing).  Exceptions are modelled by `Except PyErr`
where `PyErr` records the exception class relevant to `except` clauses. -/

inductive PVal where
  | pnone
  | num (q : ℚ)
  | str (s : String)
deriving DecidableEq, Repr

/-- Keyword arguments: a Python dict in insertion order. -/
abbrev Kw := List (String × PVal)

def lookupKw (kwargs : Kw) (k : String) : Option PVal :=
  (kwargs.find? (fun p => p.1 = k)).map (·.2)

/-- `d[k] = v` on a Python dict: replace in place if the key exists,
append otherwise. -/
def updateKw : Kw → String → PVal → Kw
  | [], k, v => [(k, v)]
  | p :: rest, k, v => if p.1 = k then (k, v) :: rest else p :: updateKw rest k v

/-- Exception classes raised by the validator subsystem.  `ValidationError`
extends `Exception` only; `InvalidValueError` and `ConditionError` extend
both `ValidationError` and `ValueError`. -/
inductive PyErr where
  | keyError
  | typeError
  | valueError
  | validationError
  | invalidValue
  | conditionError
  | nameError
deriving DecidableEq, Repr

/-- Membership in class `ValueError` (what `except ValueError` catches). -/
def PyErr.isValueError : PyErr → Bool
  | .valueError | .invalidValue | .conditionError => true
  | _ => false

/-- Membership in class `KeyError` (what `except KeyError` catches). -/
def PyErr.isKeyError : PyErr → Bool
  | .keyError => true
  | _ => false

inductive ClosedE | both | left | right | neither
deriving DecidableEq, Repr

/-- `Limits.dtype`: the setter replaces `None` by `float`. -/
inductive Dty | dfloat | dint
deriving DecidableEq, Repr

/-- `Values.dtype`: optional, `None` means no coercion. -/
inductive VDty | vnone | vfloat | vint
deriving DecidableEq, Repr

/-- Python `int()` on a float: truncation toward zero. -/
def truncQ (q : ℚ) : ℚ := if 0 ≤ q then (⌊q⌋ : ℚ) else (⌈q⌉ : ℚ)

def Dty.coeQ : Dty → ℚ → ℚ
  | .dfloat, q => q
  | .dint, q => truncQ q

/-- `Limits.as_dtype` on our value domain: numbers coerce, `None` and
(non-numeric) strings raise, surfaced as a TypeError. -/
def asDtypeL : Dty → PVal → Except PyErr ℚ
  | d, .num q => .ok (d.coeQ q)
  | _, _ => .error .typeError

/-- `Values.as_dtype`: no dtype means the value passes through unchanged. -/
def asDtypeV : VDty → PVal → Except PyErr PVal
  | .vnone, x => .ok x
  | .vfloat, .num q => .ok (.num q)
  | .vint, .num q => .ok (.num (truncQ q))
  | _, _ => .error .typeError

/-- `Limits.enforce` options. -/
inductive EnfL | strict | snap | typ | dflt | nop | warn
deriving DecidableEq, Repr

/-- `Values.enforce` options. -/
inductive EnfV | strict | typ | dflt | nop
deriving DecidableEq, Repr

/-- The `conditions=` policy argument of `validate`. -/
inductive CPolicy | cpass | craise
deriving DecidableEq, Repr

/-- A `LimitManager`: no limit, a numeric constant (stored dtype-coerced at
set time), or a callable of named parameters whose result is dtype-coerced
at call time; `Option.none` from the callable models the wrapped function
raising. -/
inductive LimitM where
  | noLim
  | const (q : ℚ)
  | fn (keys : List String) (f : (String → PVal) → Option ℚ)

def LimitM.keys : LimitM → List String
  | .fn ks _ => ks
  | _ => []

/-- `LimitManager.__call__`. -/
def LimitM.eval (m : LimitM) (dty : Dty) (kwargs : Kw) : Except PyErr (Option ℚ) :=
  match m with
  | .noLim => .ok Option.none
  | .const q => .ok (some (dty.coeQ q))
  | .fn ks f =>
    if ks.all (fun k => (lookupKw kwargs k).isSome) then
      match f (fun k => (lookupKw kwargs k).getD .pnone) with
      | some r => .ok (some (dty.coeQ r))
      | Option.none => .error .valueError
    else .error .keyError

mutual
/-- A condition entry: a range tuple (third element defaulted to
both-closed at construction), a list of valid values, or a nested
validator. -/
inductive Cnd where
  | range (lo hi : ℚ) (closed : ClosedE)
  | vset (vs : List PVal)
  | nested (v : Vldtr)

/-- The `conditions` dict of a validator, in declaration order. -/
inductive CndList where
  | nil
  | cons (key : String) (c : Cnd) (rest : CndList)

/-- A model validator: `Limits` or `Values` (validators.py:402 and 223). -/
inductive Vldtr where
  | lim (key : String) (vmin vmax : LimitM) (closed : ClosedE) (dty : Dty)
        (dflt : PVal) (subtract addKeys : List String) (enforce : EnfL)
        (conds : CndList)
  | vals (key : String) (values : List PVal) (dty : VDty) (dflt : PVal)
         (enforce : EnfV) (conds : CndList)
end

def Vldtr.key : Vldtr → String
  | .lim k _ _ _ _ _ _ _ _ _ => k
  | .vals k _ _ _ _ _ => k

def Vldtr.subtract : Vldtr → List String
  | .lim _ _ _ _ _ _ s _ _ _ => s
  | .vals _ _ _ _ _ _ => []

def Vldtr.addKeys : Vldtr → List String
  | .lim _ _ _ _ _ _ _ a _ _ => a
  | .vals _ _ _ _ _ _ => []

def Vldtr.conds : Vldtr → CndList
  | .lim _ _ _ _ _ _ _ _ _ c => c
  | .vals _ _ _ _ _ c => c

mutual
/-- `Validator.kwargs` (validators.py:18-34): the validated key, the
condition keys, the nested validators' own kwargs, and the functional
limits' parameter names.  (The source returns a sorted set; only
membership is ever used.)  The `subtract`/`add` keys are *not* included,
as in the source. -/
def Vldtr.reqKeys : Vldtr → List String
  | .lim k vmin vmax _ _ _ _ _ _ conds =>
      k :: (conds.reqKeys ++ vmin.keys ++ vmax.keys)
  | .vals k _ _ _ _ conds => k :: conds.reqKeys

def CndList.reqKeys : CndList → List String
  | .nil => []
  | .cons k c rest => k :: (c.reqKeys ++ rest.reqKeys)

def Cnd.reqKeys : Cnd → List String
  | .nested v => v.reqKeys
  | _ => []
end

/-- All of the validator's required keyword arguments are present. -/
def allPresent (ks : List String) (kwargs : Kw) : Bool :=
  ks.all (fun k => (lookupKw kwargs k).isSome)

/-- `Validator.check_values`. -/
def checkValues (x : PVal) (vs : List PVal) : Bool := vs.contains x

/-- Sum of the numeric values of the given keys; `Option.none` models the
`except` branch (missing key or non-numeric value) which the source turns
into a (broken) re-raise. -/
def sumNums (ks : List String) (kwargs : Kw) : Option ℚ :=
  ks.foldl
    (fun acc k => do
      let s ← acc
      match lookupKw kwargs k with
      | some (.num q) => some (s + q)
      | _ => Option.none)
    (some 0)

/-- `Validator.check_limits` with explicit numeric `vmin`/`vmax`: shifts
`vmax` down by the `subtract` keys' values and `vmin` up by the `add`
keys' values, then checks the interval per `closed`.  A failure while
adjusting raises (a NameError, due to the unbound `{s}` in the source's
message). -/
def checkLimits (subtract addKeys : List String) (closed : ClosedE)
    (x vmin vmax : ℚ) (kwargs : Kw) : Except PyErr Bool :=
  match sumNums subtract kwargs, sumNums addKeys kwargs with
  | some s, some a =>
    let vmax := vmax - s
    let vmin := vmin + a
    let left := match closed with
      | .left | .both => decide (vmin ≤ x)
      | _ => decide (vmin < x)
    let right := match closed with
      | .right | .both => decide (x ≤ vmax)
      | _ => decide (x < vmax)
    .ok (left && right)
  | _, _ => .error .nameError

mutual
/-- `Validator.check_conditions` (validators.py:153-183): walk the
conditions in order; a nested validator is satisfied when its `validate`
does not raise a `ValueError` (other exception classes propagate); a range
tuple is checked with `check_limits` (so the validator's own
`subtract`/`add` adjustments apply to it); a list is a membership test.
Returns `false` as soon as one condition fails. -/
def checkConditions (subtract addKeys : List String) :
    CndList → Kw → Except PyErr Bool
  | .nil, _ => .ok true
  | .cons key c rest, kwargs =>
    match c with
    | .nested v =>
      match v.validate .cpass kwargs with
      | .ok _ => checkConditions subtract addKeys rest kwargs
      | .error e => if e.isValueError then .ok false else .error e
    | .range lo hi closed =>
      match lookupKw kwargs key with
      | Option.none => .error .keyError
      | some xv =>
        match xv with
        | .num xq =>
          match checkLimits subtract addKeys closed xq lo hi kwargs with
          | .ok true => checkConditions subtract addKeys rest kwargs
          | .ok false => .ok false
          | .error e => .error e
        | _ => .error .typeError
    | .vset vs =>
      match lookupKw kwargs key with
      | Option.none => .error .keyError
      | some xv =>
        if checkValues xv vs then checkConditions subtract addKeys rest kwargs
        else .ok false

/-- `Limits.validate` (validators.py:649-719) and `Values.validate`
(validators.py:344-399): look up the validated key (KeyError when absent),
require every key of `Validator.kwargs` to be present (ValidationError for
`Limits`, KeyError for `Values`), check the conditions (under `pass` an
unmet condition returns the input unchanged, under `raise` it raises a
ConditionError), then — for `Limits`, after evaluating both functional
bounds — apply the enforcement policy. -/
def Vldtr.validate (v : Vldtr) (policy : CPolicy) (kwargs : Kw) :
    Except PyErr PVal :=
  match v with
  | .vals key values dty dflt enforce conds =>
    match lookupKw kwargs key with
    | Option.none => .error .keyError
    | some x =>
      if allPresent (Vldtr.vals key values dty dflt enforce conds).reqKeys kwargs then
        match checkConditions [] [] conds kwargs with
        | .error e => .error e
        | .ok false =>
          match policy with
          | .cpass => .ok x
          | .craise => .error .conditionError
        | .ok true =>
          match enforce with
          | .nop => .ok x
          | .typ => asDtypeV dty x
          | .dflt =>
            match asDtypeV dty x with
            | .error e => .error e
            | .ok x' => if checkValues x' values then .ok x' else .ok dflt
          | .strict =>
            match asDtypeV dty x with
            | .error e => .error e
            | .ok x' => if checkValues x' values then .ok x' else .error .invalidValue
      else .error .keyError
  | .lim key vmin vmax closed dty dflt subtract addKeys enforce conds =>
    match lookupKw kwargs key with
    | Option.none => .error .keyError
    | some x =>
      if allPresent (Vldtr.lim key vmin vmax closed dty dflt subtract addKeys
          enforce conds).reqKeys kwargs then
        match checkConditions subtract addKeys conds kwargs with
        | .error e => .error e
        | .ok false =>
          match policy with
          | .cpass => .ok x
          | .craise => .error .conditionError
        | .ok true =>
          -- vmin = self.vmin(**kwargs); vmax = self.vmax(**kwargs)
          match vmin.eval dty kwargs with
          | .error e => .error e
          | .ok vlo? =>
            match vmax.eval dty kwargs with
            | .error e => .error e
            | .ok vhi? =>
              match enforce with
              | .nop => .ok x
              | .typ =>
                match asDtypeL dty x with
                | .error e => .error e
                | .ok xq => .ok (.num xq)
              | .dflt =>
                match asDtypeL dty x with
                | .error e => .error e
                | .ok xq =>
                  match vlo?, vhi? with
                  | some lo, some hi =>
                    match checkLimits subtract addKeys closed xq lo hi kwargs with
                    | .ok true => .ok (.num xq)
                    | .ok false => .ok dflt
                    | .error e => .error e
                  | _, _ => .error .typeError
              | .snap =>
                match asDtypeL dty x with
                | .error e => .error e
                | .ok xq =>
                  match vlo?, vhi? with
                  | some lo, some hi => .ok (.num (min (max xq lo) hi))
                  | _, _ => .error .typeError
              | .strict =>
                match asDtypeL dty x with
                | .error e => .error e
                | .ok xq =>
                  match vlo?, vhi? with
                  | some lo, some hi =>
                    match checkLimits subtract addKeys closed xq lo hi kwargs with
                    | .ok true => .ok (.num xq)
                    | .ok false => .error .invalidValue
                    | .error e => .error e
                  | _, _ => .error .typeError
              | .warn =>
                match asDtypeL dty x with
                | .error e => .error e
                | .ok xq =>
                  match vlo?, vhi? with
                  | some lo, some hi =>
                    match checkLimits subtract addKeys closed xq lo hi kwargs with
                    | .ok _ => .ok (.num xq)
                    | .error e => .error e
                  | _, _ => .error .typeError
      else .error .validationError
end

/-! ### Facts about dtype coercion and limit evaluation -/

/-! ### Facts about kwargs update -/

/-! ### Unfolding lemmas for `validate` -/

/-! ## `Model.validate` (model.py:359-381)

For each key of the input dict, in order: look up the key's validator list
(a missing entry is a KeyError, caught, leaving the original value); apply
each validator with the `pass` policy (a KeyError anywhere in the list is
caught the same way; other exceptions propagate), then re-apply it with the
`raise` policy inside a bare `try/except` whose failures are ignored,
feeding the progressively updated dict forward. -/

def applyValidatorList : List Vldtr → String → Kw → Except PyErr Kw
  | [], _, validated => .ok validated
  | v :: rest, key, validated =>
    match v.validate .cpass validated with
    | .error e => .error e
    | .ok x1 =>
      match v.validate .craise (updateKw validated key x1) with
      | .error _ => applyValidatorList rest key (updateKw validated key x1)
      | .ok x2 =>
        applyValidatorList rest key (updateKw (updateKw validated key x1) key x2)

/-- `self.validators[key]`, as an `Option`. -/
def lookupVs (validators : List (String × List Vldtr)) (k : String) :
    Option (List Vldtr) :=
  (validators.find? (fun p => p.1 = k)).map (·.2)

/-- One iteration of the loop body of `Model.validate`, with its
`except KeyError: validated[key] = arg` handler. -/
def modelValidateStep (validators : List (String × List Vldtr)) (validated : Kw)
    (key : String) (arg : PVal) : Except PyErr Kw :=
  match lookupVs validators key with
  | Option.none => .ok (updateKw validated key arg)
  | some vl =>
    match applyValidatorList vl key validated with
    | .ok v' => .ok v'
    | .error e =>
      if e.isKeyError then .ok (updateKw validated key arg) else .error e

def modelValidateGo (validators : List (String × List Vldtr)) :
    List (String × PVal) → Kw → Except PyErr Kw
  | [], validated => .ok validated
  | (key, arg) :: rest, validated =>
    match modelValidateStep validators validated key arg with
    | .ok v' => modelValidateGo validators rest v'
    | .error e => .error e

/-- `Model.validate`: iterate over the items of the input dict, starting
from `validated = kwargs.copy()`. -/
def modelValidate (validators : List (String × List Vldtr)) (kwargs : Kw) :
    Except PyErr Kw :=
  modelValidateGo validators kwargs kwargs

/-! ### Key-set preservation -/

/-! ### Validators for absent keys are never consulted -/

/-! ## Reference store (`cpm/base/references.py`)

The reference data tree is a nesting of dicts bottoming out in values; the
values relevant to the claims are numeric.  A "leaf mapping" is a `node`
reached after descending one step per declared level. -/

inductive RTree where
  | val (q : ℚ)
  | node (entries : List (String × RTree))

def RTree.assoc : List (String × RTree) → String → Option RTree
  | [], _ => Option.none
  | p :: rest, k => if p.1 = k then some p.2 else RTree.assoc rest k

/-- Step through the nesting one level-value at a time (`__getitem__`'s
`for arg in args: level = level[arg]`); `Option.none` models the caught
exception. -/
def RTree.descend : RTree → List String → Option RTree
  | t, [] => some t
  | .node es, a :: rest =>
    (match RTree.assoc es a with
     | some t => RTree.descend t rest
     | Option.none => Option.none)
  | .val _, _ :: _ => Option.none

structure Reference where
  name : String
  levels : List String
  data : RTree

inductive RefErr where
  | keyError (levels : List String) (supplied : List String)
  | refError (name : String) (path : List String)

/-- Python `str()` of a query value used to index a reference level.
(HSM queries use strings and integers; a non-integral rational prints in
Lean's `a/b` form rather than Python's decimal form, which no claim
exercises.) -/
def PVal.pyStr : PVal → String
  | .str s => s
  | .num q => if q.den = 1 then toString q.num else toString q
  | .pnone => "None"

/-- `Reference.__getitem__` (references.py:293-305): descend the data tree
by the argument tuple; any failure along the way raises a ReferenceError
naming the reference and the full key path. -/
def Reference.getitem (r : Reference) (args : List String) : Except RefErr RTree :=
  match r.data.descend args with
  | some t => .ok t
  | Option.none => .error (.refError r.name args)

/-- `Reference.retrieve` (references.py:368-384): build the slicing tuple
`tuple(str(kwargs[key]) for key in self.levels)` — a missing level key
raises a KeyError naming the declared levels and the supplied keywords —
then index into the tree.  A reference with zero levels descends zero
steps and returns its flat leaf data whatever the kwargs. -/
def Reference.retrieve (r : Reference) (kwargs : Kw) : Except RefErr RTree :=
  if r.levels.all (fun l => (lookupKw kwargs l).isSome) then
    r.getitem (r.levels.map (fun l => ((lookupKw kwargs l).getD .pnone).pyStr))
  else .error (.keyError r.levels (kwargs.map Prod.fst))

/-- The stringified level values of a query. -/
def Reference.queryPath (r : Reference) (kwargs : Kw) : List String :=
  r.levels.map (fun l => ((lookupKw kwargs l).getD .pnone).pyStr)

/-! ## `ResOperator` and composition conversion (`cpm/base/operators.py`) -/

/-- The parent `FuncOperator` of a result, reduced to what `convert` and
`comp` read from it: its composition dict. -/
structure ROElement where
  comp : Kw

structure ResOp where
  value : ℚ
  parent : ROElement

/-- `ResOperator.comp` delegates to the parent element. -/
def ResOp.comp (r : ResOp) : Kw := r.parent.comp

/-- `ResOperator.modify` (operators.py:266-267): a new result with the
**same parent** — and hence still the original composition. -/
def ResOp.modify (r : ResOp) (v : ℚ) : ResOp := ⟨v, r.parent⟩

/-- `ResOperator.current_ref`. -/
def ResOp.currentRef (r : ResOp) (ref : Reference) : Except RefErr RTree :=
  ref.retrieve r.comp

inductive ConvErr where
  | fromIncompatible
  | toIncompatible
  | typeError

/-- `ResOperator.convert` (operators.py:274-313): retrieve the "from"
factor at the result's own composition and the "to" factor at the target
composition (retrieval failures become ValueErrors); the division then
requires both retrieved leaves to be numbers. -/
def ResOp.convert (r : ResOp) (ref : Reference) (comp : Kw) : Except ConvErr ResOp :=
  match r.currentRef ref with
  | .error _ => .error .fromIncompatible
  | .ok fr =>
    match ref.retrieve comp with
    | .error _ => .error .toIncompatible
    | .ok toV =>
      match fr, toV with
      | .val a, .val b => .ok (r.modify (r.value * (b / a)))
      | _, _ => .error .typeError

/-- A two-composition severity-distribution reference with nonzero leaves. -/
def refSev : Reference :=
  ⟨"sev_dist", ["severity"], .node [("a", .val 2), ("b", .val 3)]⟩

/-- A result of value 1 whose element carries composition `{severity: 'a'}`. -/
def resA : ResOp := ⟨1, ⟨[("severity", .str "a")]⟩⟩

/-- `resA` converted to `{severity:'b'}` and back to `{severity:'a'}`. -/
def resRoundTrip : Except ConvErr ResOp :=
  match resA.convert refSev [("severity", .str "b")] with
  | .ok r1 => r1.convert refSev [("severity", .str "a")]
  | .error e => .error e

/-! ## Model registration state and locking (`cpm/base/model.py`)

`Model` holds a `LayerCollection` (an `OrderedDict` keyed by the integer
insertion index), a `ReferenceCollection` (an `OrderedDict` keyed by
reference name), the `refs` list, the `validators` dict and the lock flag.
Every registration method calls `_check_lock` before touching anything
(model.py:201-207), so a raised `ModelLockedError` leaves the object
exactly as it was; `runMut` encodes that exception semantics. -/

/-- A layer label: `add_layer(name=None)` replaces `None` by the integer
index. -/
inductive LLabel where
  | int (i : ℤ)
  | str (s : String)
deriving DecidableEq, Repr

structure LayerSt where
  name : LLabel
  elements : List String
deriving DecidableEq, Repr

structure ModelSt where
  locked : Bool
  layers : List (ℤ × LayerSt)
  references : List (String × Reference)
  refs : List Reference
  validators : List (String × List Vldtr)

inductive MErr where
  | modelLocked
  | duplicateLayerName
  | noLayers
deriving DecidableEq, Repr

/-- `Model._check_lock` (model.py:201-207). -/
def ModelSt.checkLock (m : ModelSt) : Except MErr Unit :=
  if m.locked then .error .modelLocked else .ok ()

def ModelSt.lock (m : ModelSt) : ModelSt := {m with locked := true}

def ModelSt.unlock (m : ModelSt) : ModelSt := {m with locked := false}

/-- `LayerCollection.add_layer` (elements.py:145-162): the new layer is
stored under the integer index `i = num_layers`, while the duplicate check
tests the provided name for membership among the collection's *keys* —
which are always the integer indices, never the stored layer names. -/
def addLayerColl (coll : List (ℤ × LayerSt)) (name? : Option LLabel) :
    Except MErr (List (ℤ × LayerSt)) :=
  let i : ℤ := coll.length
  let name := name?.getD (.int i)
  let keyHit := match name with
    | .int j => (coll.map Prod.fst).contains j
    | .str _ => false
  if keyHit then .error .duplicateLayerName
  else .ok (coll ++ [(i, ⟨name, []⟩)])

/-- `Model.add_layer` (model.py:317-333): check the lock, then delegate. -/
def ModelSt.addLayer (m : ModelSt) (name? : Option LLabel) : Except MErr ModelSt :=
  match m.checkLock with
  | .error e => .error e
  | .ok _ =>
    match addLayerColl m.layers name? with
    | .error e => .error e
    | .ok coll => .ok {m with layers := coll}

/-- Python dict assignment on the reference collection. -/
def updateRefColl : List (String × Reference) → String → Reference →
    List (String × Reference)
  | [], k, v => [(k, v)]
  | p :: rest, k, v =>
    if p.1 = k then (k, v) :: rest else p :: updateRefColl rest k v

/-- `ReferenceCollection.add_reference` (references.py:56-68):
`self._collection[obj.name] = obj` — an existing reference with the same
name is silently replaced; no duplicate check exists. -/
def addReferenceColl (coll : List (String × Reference)) (obj : Reference) :
    List (String × Reference) :=
  updateRefColl coll obj.name obj

/-- `Model.add_reference` (model.py:268-293): check the lock, add to the
reference collection, append to `self.refs`. -/
def ModelSt.addReference (m : ModelSt) (obj : Reference) : Except MErr ModelSt :=
  match m.checkLock with
  | .error e => .error e
  | .ok _ =>
    .ok {m with references := addReferenceColl m.references obj,
                refs := m.refs ++ [obj]}

/-- `self.validators[obj.key].append(obj)` with `except KeyError: ... = [obj]`. -/
def addValidatorColl : List (String × List Vldtr) → Vldtr →
    List (String × List Vldtr)
  | [], v => [(v.key, [v])]
  | p :: rest, v =>
    if p.1 = v.key then (p.1, p.2 ++ [v]) :: rest
    else p :: addValidatorColl rest v

/-- `Model.add_validator` (model.py:295-315). -/
def ModelSt.addValidator (m : ModelSt) (v : Vldtr) : Except MErr ModelSt :=
  match m.checkLock with
  | .error e => .error e
  | .ok _ => .ok {m with validators := addValidatorColl m.validators v}

/-- A per-kind element registrar produced by `Model._build_helpers`
(model.py:86-138): the wrapper checks the lock first, then registers the
element into the current (most recently added) layer via
`LayerCollection.add_element`, which fails when no layer exists. -/
def ModelSt.addElement (m : ModelSt) (ename : String) : Except MErr ModelSt :=
  match m.checkLock with
  | .error e => .error e
  | .ok _ =>
    match m.layers.getLast? with
    | Option.none => .error .noLayers
    | some (i, st) =>
      .ok {m with layers :=
        m.layers.dropLast ++ [(i, ⟨st.name, st.elements ++ [ename]⟩)]}

/-- Run a registration call with Python exception semantics: on a raised
error the object is left unchanged (sound here because every method checks
the lock before its first mutation). -/
def runMut (f : ModelSt → Except MErr ModelSt) (m : ModelSt) : ModelSt :=
  match f m with
  | .ok m' => m'
  | .error _ => m

def ModelSt.numLayers (m : ModelSt) : ℕ := m.layers.length

def ModelSt.numElements (m : ModelSt) : ℕ :=
  (m.layers.map (fun p => p.2.elements.length)).sum

def ModelSt.numValidators (m : ModelSt) : ℕ :=
  (m.validators.map (fun p => p.2.length)).sum

def ModelSt.numReferences (m : ModelSt) : ℕ := m.references.length

/-! ## Witness model for the layered evaluation protocol -/

def wA : PElement ℚ := ⟨"a", fun _ => 1⟩

def wB : PElement ℚ := ⟨"b", fun ns => ((ns "a").getD 0) + 1⟩

def wC : PElement ℚ := ⟨"c", fun ns => ((ns "b").getD 0) + 1⟩

def wLayers : List (List (PElement ℚ)) := [[wA], [wB], [wC]]

def wInput : NS ℚ := fun k => if k = "x" then some 0 else Option.none

/-! ## `Prediction.res` (`cpm/base/elements.py:453-456`)

`Prediction.res` builds an `OrderedDict` over
`self.elements.elements` — `LayerCollection.elements`
(elements.py:104-113), which is `list(set(...))` of all elements of all
layers — filtered to the `Result` kind.  Elements hash and compare by
name, so the set deduplicates by name and enumerates in whatever order the
Python set produces; `IsPySetList` captures exactly the orders a set
enumeration may produce. -/

inductive EKind where
  | spf | cf | af | sub | hidden | result
deriving DecidableEq, Repr

structure PE where
  name : String
  kind : EKind
deriving DecidableEq, Repr

/-- The elements of all layers in registration order
(layers in declaration order, insertion order within a layer). -/
def regElements (layers : List (List PE)) : List PE := layers.flatten

/-- `enum` is a possible enumeration of the Python set built from `orig`,
where element equality is by name. -/
def IsPySetList (orig enum : List PE) : Prop :=
  (enum.map (·.name)).Nodup ∧ (∀ e ∈ enum, e ∈ orig) ∧
    (∀ e ∈ orig, ∃ e2 ∈ enum, e2.name = e.name)

instance (orig enum : List PE) : Decidable (IsPySetList orig enum) := by
  unfold IsPySetList
  infer_instance

/-- `Prediction.res`: the ordered mapping
`[(e, data[e]) for e in elements if isinstance(e, Result)]` over the given
set-enumeration order, with `data[e]` resolving by element name. -/
def predRes (enum : List PE) (data : String → Option ℚ) :
    List (String × Option ℚ) :=
  (enum.filter (fun e => e.kind == EKind.result)).map (fun e => (e.name, data e.name))

def dataW : String → Option ℚ := fun _ => some 1

/-! ## Rural two-lane segment model (`cpm/hsm/rtl_seg/model.py`)

The element functions are embedded directly; Python floats become exact
rationals where the body is pure branching/arithmetic and reals where
`math.exp`/`math.log` appear.  The shoulder type is one of the four values
admitted by the `shld_type` validator. -/

inductive ShldType where
  | paved | gravel | composite | turf
deriving DecidableEq, Repr

/-- `af_lane_width` (model.py:112-144), HSM Table 10-8 / Equation 10-11. -/
def af_lane_width (lane_width aadt : ℚ) : ℚ :=
  let af : ℚ :=
    if lane_width < 10 then
      if aadt < 400 then 1.05
      else if aadt > 2000 then 1.50
      else 1.05 + 2.81 * 1e-4 * (aadt - 400)
    else if lane_width < 11 then
      if aadt < 400 then 1.02
      else if aadt > 2000 then 1.30
      else 1.02 + 1.75 * 1e-4 * (aadt - 400)
    else if lane_width < 12 then
      if aadt < 400 then 1.01
      else if aadt > 2000 then 1.05
      else 1.01 + 2.50 * 1e-5 * (aadt - 400)
    else 1.00
  (af - 1.0) * 0.574 + 1

/-- `af_shld` (model.py:146-242), HSM Tables 10-9/10-10 / Equation 10-12. -/
def af_shld (aadt shld_width : ℚ) (shld_type : ShldType) : ℚ :=
  let af_typ : ℚ :=
    if shld_width < 1 then 1.00
    else if shld_width < 2 then
      match shld_type with
      | .paved => 1.00 | .gravel => 1.00 | .composite => 1.01 | .turf => 1.01
    else if shld_width < 3 then
      match shld_type with
      | .paved => 1.00 | .gravel => 1.01 | .composite => 1.02 | .turf => 1.03
    else if shld_width < 4 then
      match shld_type with
      | .paved => 1.00 | .gravel => 1.01 | .composite => 1.02 | .turf => 1.04
    else if shld_width < 6 then
      match shld_type with
      | .paved => 1.00 | .gravel => 1.01 | .composite => 1.03 | .turf => 1.05
    else if shld_width < 8 then
      match shld_type with
      | .paved => 1.00 | .gravel => 1.02 | .composite => 1.04 | .turf => 1.08
    else
      match shld_type with
      | .paved => 1.00 | .gravel => 1.02 | .composite => 1.06 | .turf => 1.11
  let af_wth : ℚ :=
    if shld_width < 2 then
      if aadt < 400 then 1.10
      else if aadt > 2000 then 1.50
      else 1.10 + 2.50 * 1e-4 * (aadt - 400)
    else if shld_width < 4 then
      if aadt < 400 then 1.07
      else if aadt > 2000 then 1.30
      else 1.07 + 1.43 * 1e-4 * (aadt - 400)
    else if shld_width < 6 then
      if aadt < 400 then 1.02
      else if aadt > 2000 then 1.15
      else 1.02 + 8.125 * 1e-5 * (aadt - 400)
    else if shld_width < 8 then 1.00
    else
      if aadt < 400 then 0.98
      else if aadt > 2000 then 0.87
      else 0.98 - 6.875 * 1e-5 * (aadt - 400)
  (af_typ * af_wth - 1.0) * 0.574 + 1

/-- `af_hor_curve` (model.py:244-265), HSM Equation 10-13. -/
def af_hor_curve (length curve_length curve_radius spiral_transition : ℚ) : ℚ :=
  if curve_length = 0 ∧ curve_radius = 0 then 1.00
  else
    let curve_length := min curve_length length
    let curve_length := max curve_length (100 / 5280)
    let curve_radius := max curve_radius 100
    let af := ((1.55 * curve_length) + (80.2 / curve_radius) -
      (0.012 * spiral_transition)) / (1.55 * curve_length)
    max af 1.00

/-- `af_se_var` (model.py:267-282), HSM Equations 10-14/15/16. -/
def af_se_var (se_var : ℚ) : ℚ :=
  if se_var < 0.01 then 1.00
  else if se_var ≥ 0.02 then 1.06 + (3 * (se_var - 0.02))
  else 1.00 + (6 * (se_var - 0.01))

/-- `af_grade` (model.py:284-300), HSM Table 10-11. -/
def af_grade (grade : ℚ) : ℚ :=
  let grade := |grade|
  if grade ≤ 3.00 then 1.00
  else if grade ≤ 6.00 then 1.10
  else 1.16

/-- `af_dwy_density` (model.py:302-313), HSM Equation 10-17; the `length`
parameter is accepted but unused, as in the source. -/
noncomputable def af_dwy_density (aadt length dwy_density : ℚ) : ℝ :=
  if dwy_density < 5 then 1.00
  else (0.322 + ((dwy_density : ℝ) * (0.05 - 0.005 * Real.log (aadt : ℝ)))) /
    (0.322 + (5 * (0.05 - 0.005 * Real.log (aadt : ℝ))))

/-- `af_rumble_cl` (model.py:315-325). -/
def af_rumble_cl (rumble_cl : ℚ) : ℚ :=
  if rumble_cl = 1 then 0.94 else 1.00

/-- `af_passing_lanes` (model.py:327-339); the final branch is the
`passing_lanes == 2` case — the source leaves other values undefined, and
the `passing_lanes` validator admits only 0, 1 and 2. -/
def af_passing_lanes (passing_lanes : ℚ) : ℚ :=
  if passing_lanes = 0 then 1.00
  else if passing_lanes = 1 then 0.75
  else 0.65

/-- `af_twltl` (model.py:341-354), HSM Equations 10-18/19; `length` is
accepted but unused, as in the source. -/
def af_twltl (twltl length dwy_density : ℚ) : ℚ :=
  if twltl = 0 then 1.00
  else if dwy_density < 5 then 1.00
  else
    let dwy_prop := ((0.0047 * dwy_density) + (0.0024 * dwy_density ^ 2)) /
      (1.199 + (0.0047 * dwy_density) + (0.0024 * dwy_density ^ 2))
    1.0 - (0.7 * dwy_prop * 0.5)

/-- `af_rhr` (model.py:357-364), HSM Equation 10-20. -/
noncomputable def af_rhr (rhr : ℚ) : ℝ :=
  Real.exp (-0.6869 + (0.0668 * (rhr : ℝ))) / Real.exp (-0.4865)

/-- `af_lighting` (model.py:366-376), HSM Equation 10-21 / Table 10-12. -/
def af_lighting (lighting : ℚ) : ℚ :=
  if lighting = 1 then 1.0 - ((1.0 - (0.72 * 0.382) - (0.83 * 0.618)) * 0.370)
  else 1.00

/-- `af_ase` (model.py:378-388). -/
def af_ase (ase : ℚ) : ℚ :=
  if ase = 1 then 0.93 else 1.00

/-- `af_total` (model.py:392-401): the product of the twelve layer-0
adjustment factors, read from the namespace. -/
noncomputable def af_total
    (af_lane_width af_shld af_hor_curve af_se_var af_grade af_dwy_density
     af_rumble_cl af_passing_lanes af_twltl af_rhr af_lighting af_ase : ℝ) : ℝ :=
  af_lane_width * af_shld * af_hor_curve * af_se_var * af_grade *
    af_dwy_density * af_rumble_cl * af_passing_lanes * af_twltl *
    af_rhr * af_lighting * af_ase

/-- `spf` (model.py:95-101), HSM Equation 10-7; `a`, `b`, `cf` come from
the `spf` reference table. -/
noncomputable def spf (aadt length a b cf : ℝ) : ℝ :=
  a * aadt * length * 365 * 1e-6 * Real.exp b * cf

/-- `spf_kabco` (model.py:103-105). -/
noncomputable def spf_kabco (aadt length a b cf : ℝ) : ℝ :=
  spf aadt length a b cf

/-- `cf_total` (model.py:410-412): returns the calibration reference's
`cf` value. -/
def cf_total (cf : ℝ) : ℝ := cf

/-- `pred_kabco` (model.py:421-425). -/
noncomputable def pred_kabco (spf_kabco af_total cf_total num_years : ℝ) : ℝ :=
  spf_kabco * af_total * cf_total * num_years

/-- `exp_kabco` (model.py:434-449): the Empirical Bayes expected crash
computation; with `obs_kabco == -1` (the "no historic data" sentinel, also
used for Python `None`) the EB branch is skipped and `-1` is returned. -/
noncomputable def exp_kabco (obs_kabco pred_kabco k length num_years : ℝ) : ℝ :=
  if obs_kabco = -1 then -1
  else
    let w := 1 / (1 + (k / length) * pred_kabco)
    w * pred_kabco + ((1 - w) * obs_kabco)

/-- `af_total` evaluated at the claim's input record: `aadt=5000,
length=1.0, lane_width=12, shld_width=8, shld_type='paved', rumble_cl=0,
passing_lanes=0, twltl=0, curve_length=0, curve_radius=0,
spiral_transition=0, se_var=0, grade=0, dwy_density=0, rhr=3, lighting=0,
ase=0`. -/
noncomputable def rtl_af_total_at : ℝ :=
  af_total ((af_lane_width 12 5000 : ℚ) : ℝ) ((af_shld 5000 8 .paved : ℚ) : ℝ)
    ((af_hor_curve 1 0 0 0 : ℚ) : ℝ) ((af_se_var 0 : ℚ) : ℝ)
    ((af_grade 0 : ℚ) : ℝ) (af_dwy_density 5000 1 0)
    ((af_rumble_cl 0 : ℚ) : ℝ) ((af_passing_lanes 0 : ℚ) : ℝ)
    ((af_twltl 0 1 0 : ℚ) : ℝ) (af_rhr 3)
    ((af_lighting 0 : ℚ) : ℝ) ((af_ase 0 : ℚ) : ℝ)

/-! ## Theorems -/

theorem mergeNS_isSome {V : Type} (ns : NS V) (out : List (String × V)) (k : String)
    (h : (ns k).isSome) : (mergeNS ns out k).isSome := by
  unfold mergeNS
  cases hfind : dictLookup out k with
  | some v => simp
  | none => simpa using h

theorem lcEvaluate_isSome {V : Type} (layers : List (List (PElement V))) (ns : NS V)
    (k : String) (h : (ns k).isSome) : (lcEvaluate layers ns k).isSome := by
  induction layers generalizing ns with
  | nil => simpa [lcEvaluate] using h
  | cons l rest ih =>
    exact ih (mergeNS ns (layerEval l ns)) (mergeNS_isSome ns (layerEval l ns) k h)

theorem dictLookup_layerEval_isSome {V : Type} (l : List (PElement V)) (ns : NS V)
    (e : PElement V) (he : e ∈ l) : (dictLookup (layerEval l ns) e.name).isSome := by
  induction l with
  | nil => cases he
  | cons a rest ih =>
    show (dictLookup ((a.name, a.fn ns) :: layerEval rest ns) e.name).isSome
    rcases List.mem_cons.mp he with rfl | hmem
    · unfold dictLookup
      cases hfind : dictLookup (layerEval rest ns) e.name with
      | some v => simp
      | none => simp
    · unfold dictLookup
      cases hfind : dictLookup (layerEval rest ns) e.name with
      | some v => simp
      | none =>
        have := ih hmem
        rw [hfind] at this
        simp at this

theorem dictLookup_layerEval_none {V : Type} (l : List (PElement V)) (ns : NS V)
    (k : String) (hk : ∀ e ∈ l, e.name ≠ k) :
    dictLookup (layerEval l ns) k = none := by
  induction l with
  | nil => rfl
  | cons a rest ih =>
    show dictLookup ((a.name, a.fn ns) :: layerEval rest ns) k = none
    unfold dictLookup
    rw [ih (fun e he => hk e (List.mem_cons_of_mem a he))]
    simp [hk a (List.mem_cons_self a rest)]

/-- With distinct element names inside one layer, the layer's output for an
element that belongs to it is exactly that element's function applied to the
incoming namespace. -/
theorem dictLookup_layerEval_eq {V : Type} (l : List (PElement V)) (ns : NS V)
    (e : PElement V) (he : e ∈ l) (hnd : (l.map (·.name)).Nodup) :
    dictLookup (layerEval l ns) e.name = some (e.fn ns) := by
  induction l with
  | nil => cases he
  | cons a rest ih =>
    have hna : a.name ∉ rest.map (·.name) := (List.nodup_cons.mp hnd).1
    have hnd' : (rest.map (·.name)).Nodup := (List.nodup_cons.mp hnd).2
    show dictLookup ((a.name, a.fn ns) :: layerEval rest ns) e.name = some (e.fn ns)
    rcases List.mem_cons.mp he with rfl | hmem
    · unfold dictLookup
      rw [dictLookup_layerEval_none rest ns e.name
        (fun x hx hxe => hna (hxe ▸ List.mem_map.mpr ⟨x, hx, rfl⟩))]
      simp
    · unfold dictLookup
      rw [ih hmem hnd']

theorem mem_lcNames {V : Type} (layers : List (List (PElement V))) (k : String) :
    k ∈ lcNames layers ↔ ∃ l ∈ layers, ∃ e ∈ l, e.name = k := by
  simp [lcNames, List.mem_flatten, List.mem_map]

/-- If a key is not the name of any element in the remaining layers, folding
those layers leaves its binding untouched. -/
theorem lcEvaluate_not_mem {V : Type} (layers : List (List (PElement V))) (ns : NS V)
    (k : String) (h : k ∉ lcNames layers) : lcEvaluate layers ns k = ns k := by
  induction layers generalizing ns with
  | nil => rfl
  | cons l rest ih =>
    have hk_l : ∀ e ∈ l, e.name ≠ k := by
      intro e he hek
      exact h ((mem_lcNames (l :: rest) k).mpr ⟨l, List.mem_cons_self l rest, e, he, hek⟩)
    have hk_rest : k ∉ lcNames rest := by
      intro hmem
      rcases (mem_lcNames rest k).mp hmem with ⟨l', hl', e, he, hek⟩
      exact h ((mem_lcNames (l :: rest) k).mpr ⟨l', List.mem_cons_of_mem l hl', e, he, hek⟩)
    have hmerge : mergeNS ns (layerEval l ns) k = ns k := by
      unfold mergeNS
      rw [dictLookup_layerEval_none l ns k hk_l]
    calc lcEvaluate (l :: rest) ns k
        = lcEvaluate rest (mergeNS ns (layerEval l ns)) k := rfl
      _ = mergeNS ns (layerEval l ns) k := ih _ hk_rest
      _ = ns k := hmerge

theorem lcNames_cons_nodup {V : Type} (l : List (PElement V))
    (rest : List (List (PElement V))) (hnd : (lcNames (l :: rest)).Nodup) :
    (l.map (·.name)).Nodup ∧ (lcNames rest).Nodup ∧
      ∀ e ∈ l, e.name ∉ lcNames rest := by
  have h : (l.map (·.name) ++ lcNames rest).Nodup := by
    simpa [lcNames] using hnd
  rcases List.nodup_append.mp h with ⟨h1, h2, h3⟩
  exact ⟨h1, h2, fun e he => h3 (List.mem_map.mpr ⟨e, he, rfl⟩)⟩

theorem lcEvaluate_name_isSome {V : Type} :
    ∀ (layers : List (List (PElement V))) (ns : NS V) (l : List (PElement V)),
      l ∈ layers → ∀ e ∈ l, (lcEvaluate layers ns e.name).isSome := by
  intro layers
  induction layers with
  | nil => intro ns l hl; cases hl
  | cons l0 rest ih =>
    intro ns l hl e he
    rcases List.mem_cons.mp hl with rfl | hmem
    · have h1 : (mergeNS ns (layerEval l ns) e.name).isSome := by
        unfold mergeNS
        cases hfind : dictLookup (layerEval l ns) e.name with
        | some v => simp
        | none =>
          have := dictLookup_layerEval_isSome l ns e he
          rw [hfind] at this; simp at this
      exact lcEvaluate_isSome rest _ e.name h1
    · exact ih _ l hmem e he

theorem lcEvaluate_element_value {V : Type} :
    ∀ (layers : List (List (PElement V))) (ns : NS V),
      (lcNames layers).Nodup →
      ∀ (i : ℕ) (hi : i < layers.length), ∀ e ∈ layers.get ⟨i, hi⟩,
      lcEvaluate layers ns e.name = some (e.fn (lcEvaluate (layers.take i) ns)) := by
  intro layers
  induction layers with
  | nil => intro ns _ i hi; exact absurd hi (by simp)
  | cons l0 rest ih =>
    intro ns hnd i hi e he
    rcases lcNames_cons_nodup l0 rest hnd with ⟨hnd0, hndr, hdisj⟩
    match i with
    | 0 =>
      have he0 : e ∈ l0 := by simpa [List.get] using he
      have hname_rest : e.name ∉ lcNames rest := hdisj e he0
      have hval : mergeNS ns (layerEval l0 ns) e.name = some (e.fn ns) := by
        unfold mergeNS
        rw [dictLookup_layerEval_eq l0 ns e he0 hnd0]
      calc lcEvaluate (l0 :: rest) ns e.name
          = lcEvaluate rest (mergeNS ns (layerEval l0 ns)) e.name := rfl
        _ = mergeNS ns (layerEval l0 ns) e.name := lcEvaluate_not_mem rest _ _ hname_rest
        _ = some (e.fn ns) := hval
        _ = some (e.fn (lcEvaluate ((l0 :: rest).take 0) ns)) := rfl
    | Nat.succ j =>
      have hj : j < rest.length := by simpa [Nat.succ_lt_succ_iff] using hi
      have he' : e ∈ rest.get ⟨j, hj⟩ := by simpa [List.get] using he
      exact ih (mergeNS ns (layerEval l0 ns)) hndr j hj e he'

/-- **C1.** For every model (list of layers of named elements with pairwise
distinct names) and every input namespace:
(a) every raw input key is still bound in the evaluated namespace;
(b) every element name of every layer is bound in the evaluated namespace
    (so the key set is a superset of inputs ∪ element names); and
(c) the final binding of each element of layer `i` is that element's function
    applied to exactly the namespace accumulated from the raw inputs and the
    outputs of the strictly earlier layers `0..i-1` — elements of layer `i`
    itself are absent from that namespace, so same-layer elements never see
    each other's outputs. -/
theorem layer_evaluation_protocol {V : Type} (layers : List (List (PElement V)))
    (ns : NS V) (hnd : (lcNames layers).Nodup) :
    (∀ k, (ns k).isSome → (lcEvaluate layers ns k).isSome) ∧
    (∀ l ∈ layers, ∀ e ∈ l, (lcEvaluate layers ns e.name).isSome) ∧
    (∀ i, (hi : i < layers.length) → ∀ e ∈ layers.get ⟨i, hi⟩,
      lcEvaluate layers ns e.name
        = some (e.fn (lcEvaluate (layers.take i) ns))) :=
  ⟨fun k => lcEvaluate_isSome layers ns k,
   fun l hl e he => lcEvaluate_name_isSome layers ns l hl e he,
   fun i hi e he => lcEvaluate_element_value layers ns hnd i hi e he⟩

theorem truncQ_intCast (k : ℤ) : truncQ (k : ℚ) = k := by
  unfold truncQ
  split <;> simp

theorem truncQ_exists_int (q : ℚ) : ∃ k : ℤ, truncQ q = (k : ℚ) := by
  unfold truncQ
  split
  · exact ⟨⌊q⌋, rfl⟩
  · exact ⟨⌈q⌉, rfl⟩

theorem truncQ_idem (q : ℚ) : truncQ (truncQ q) = truncQ q := by
  rcases truncQ_exists_int q with ⟨k, hk⟩
  rw [hk, truncQ_intCast]

theorem Dty.coeQ_idem (d : Dty) (q : ℚ) : d.coeQ (d.coeQ q) = d.coeQ q := by
  cases d with
  | dfloat => rfl
  | dint => exact truncQ_idem q

/-- A value fixed by the dtype coercion bounds any coerced value from above:
if `q ≤ m` then `coe q ≤ m`. -/
theorem coeQ_le_of_le_fix (d : Dty) (q m : ℚ) (hm : d.coeQ m = m) (h : q ≤ m) :
    d.coeQ q ≤ m := by
  cases d with
  | dfloat => exact h
  | dint =>
    rcases truncQ_exists_int m with ⟨k, hk⟩
    have hmk : m = (k : ℚ) := by rw [← hm]; exact hk
    subst hmk
    show truncQ q ≤ (k : ℚ)
    unfold truncQ
    split
    · calc ((⌊q⌋ : ℤ) : ℚ) ≤ q := Int.floor_le q
        _ ≤ (k : ℚ) := h
    · exact_mod_cast Int.ceil_le.mpr h

/-- A value fixed by the dtype coercion bounds any coerced value from below:
if `m ≤ q` then `m ≤ coe q`. -/
theorem le_coeQ_of_fix_le (d : Dty) (q m : ℚ) (hm : d.coeQ m = m) (h : m ≤ q) :
    m ≤ d.coeQ q := by
  cases d with
  | dfloat => exact h
  | dint =>
    rcases truncQ_exists_int m with ⟨k, hk⟩
    have hmk : m = (k : ℚ) := by rw [← hm]; exact hk
    subst hmk
    show (k : ℚ) ≤ truncQ q
    unfold truncQ
    split
    · exact_mod_cast Int.le_floor.mpr h
    · calc (k : ℚ) ≤ q := h
        _ ≤ ((⌈q⌉ : ℤ) : ℚ) := Int.le_ceil q

/-- Whatever `LimitManager.__call__` returns is fixed by the dtype coercion
(constants are stored coerced, functional results are coerced on the way
out). -/
theorem evalLimit_fix (m : LimitM) (d : Dty) (kwargs : Kw) (v : ℚ)
    (h : m.eval d kwargs = .ok (some v)) : d.coeQ v = v := by
  cases m with
  | noLim => simp [LimitM.eval] at h
  | const q =>
    simp only [LimitM.eval, Except.ok.injEq, Option.some.injEq] at h
    rw [← h]
    exact d.coeQ_idem q
  | fn ks f =>
    simp only [LimitM.eval] at h
    split at h
    · split at h
      · simp only [Except.ok.injEq, Option.some.injEq] at h
        rw [← h]
        exact d.coeQ_idem _
      · cases h
    · cases h

theorem coeQ_fix_min (d : Dty) (a b : ℚ) (ha : d.coeQ a = a) (hb : d.coeQ b = b) :
    d.coeQ (min a b) = min a b := by
  rcases min_choice a b with h | h <;> rw [h] <;> assumption

theorem coeQ_fix_max (d : Dty) (a b : ℚ) (ha : d.coeQ a = a) (hb : d.coeQ b = b) :
    d.coeQ (max a b) = max a b := by
  rcases max_choice a b with h | h <;> rw [h] <;> assumption

theorem lookupKw_updateKw_self (l : Kw) (k : String) (v : PVal) :
    lookupKw (updateKw l k v) k = some v := by
  induction l with
  | nil => simp [updateKw, lookupKw]
  | cons p rest ih =>
    by_cases h : p.1 = k
    · simp [updateKw, h, lookupKw]
    · simp only [updateKw, h, if_false]
      simpa [lookupKw, List.find?, h] using ih

theorem lookupKw_updateKw_ne (l : Kw) (k k' : String) (v : PVal) (h : k' ≠ k) :
    lookupKw (updateKw l k v) k' = lookupKw l k' := by
  induction l with
  | nil => simp [updateKw, lookupKw, List.find?, Ne.symm h]
  | cons p rest ih =>
    by_cases hp : p.1 = k
    · subst hp
      simp [updateKw, lookupKw, List.find?, Ne.symm h]
    · simp only [updateKw, hp, if_false]
      by_cases hp' : p.1 = k'
      · simp [lookupKw, List.find?, hp']
      · simp only [lookupKw, List.find?, hp'] at ih ⊢
        simpa [hp'] using ih

theorem lookupKw_updateKw_isSome (l : Kw) (k k' : String) (v : PVal)
    (h : (lookupKw l k').isSome) : (lookupKw (updateKw l k v) k').isSome := by
  by_cases hk : k' = k
  · subst hk; rw [lookupKw_updateKw_self]; simp
  · rw [lookupKw_updateKw_ne l k k' v hk]; exact h

theorem allPresent_updateKw (ks : List String) (l : Kw) (k : String) (v : PVal)
    (h : allPresent ks l = true) : allPresent ks (updateKw l k v) = true := by
  simp only [allPresent, List.all_eq_true] at h ⊢
  intro x hx
  exact lookupKw_updateKw_isSome l k x v (h x hx)

/-- With the key bound to a number, all required kwargs present, conditions
met and both limits evaluating, a snap-enforcing `Limits` validator returns
`min(max(as_dtype(x), vmin), vmax)` — for either conditions policy. -/
theorem validate_snap_eval
    (key : String) (vminM vmaxM : LimitM) (closed : ClosedE) (dty : Dty)
    (dflt : PVal) (sub addk : List String) (conds : CndList) (kwargs : Kw)
    (policy : CPolicy) (q vlo vhi : ℚ)
    (hx : lookupKw kwargs key = some (.num q))
    (hall : allPresent
      (Vldtr.lim key vminM vmaxM closed dty dflt sub addk .snap conds).reqKeys
      kwargs = true)
    (hcond : checkConditions sub addk conds kwargs = .ok true)
    (hlo : vminM.eval dty kwargs = .ok (some vlo))
    (hhi : vmaxM.eval dty kwargs = .ok (some vhi)) :
    (Vldtr.lim key vminM vmaxM closed dty dflt sub addk .snap conds).validate
        policy kwargs
      = .ok (.num (min (max (dty.coeQ q) vlo) vhi)) := by
  rw [Vldtr.validate]
  rw [hx]
  simp only [hall, if_true, hcond, hlo, hhi, asDtypeL]

/-- When the conditions of a `Limits` validator are not met, `pass` returns
the input unchanged and `raise` raises a ConditionError, whatever the
enforcement policy. -/
theorem validate_lim_condFalse
    (key : String) (vminM vmaxM : LimitM) (closed : ClosedE) (dty : Dty)
    (dflt : PVal) (sub addk : List String) (enforce : EnfL) (conds : CndList)
    (kwargs : Kw) (x : PVal)
    (hx : lookupKw kwargs key = some x)
    (hall : allPresent
      (Vldtr.lim key vminM vmaxM closed dty dflt sub addk enforce conds).reqKeys
      kwargs = true)
    (hcond : checkConditions sub addk conds kwargs = .ok false) :
    (Vldtr.lim key vminM vmaxM closed dty dflt sub addk enforce conds).validate
        .cpass kwargs = .ok x ∧
    (Vldtr.lim key vminM vmaxM closed dty dflt sub addk enforce conds).validate
        .craise kwargs = .error .conditionError := by
  constructor <;> (rw [Vldtr.validate, hx]; simp only [hall, if_true, hcond])

/-- Same for a `Values` validator. -/
theorem validate_vals_condFalse
    (key : String) (values : List PVal) (dty : VDty) (dflt : PVal)
    (enforce : EnfV) (conds : CndList) (kwargs : Kw) (x : PVal)
    (hx : lookupKw kwargs key = some x)
    (hall : allPresent
      (Vldtr.vals key values dty dflt enforce conds).reqKeys kwargs = true)
    (hcond : checkConditions [] [] conds kwargs = .ok false) :
    (Vldtr.vals key values dty dflt enforce conds).validate .cpass kwargs = .ok x ∧
    (Vldtr.vals key values dty dflt enforce conds).validate .craise kwargs
      = .error .conditionError := by
  constructor <;> (rw [Vldtr.validate, hx]; simp only [hall, if_true, hcond])

/-- **C2.** For a `Limits` validator with `enforce='snap'` whose key holds a
number, whose required kwargs are present, whose conditions are met and
whose evaluated bounds are `vmin ≤ vmax`: an input below `vmin` snaps to
`vmin`, an input above `vmax` snaps to `vmax`, an input inside the interval
is returned coerced to the dtype, and `validate` is idempotent — re-running
it on its own output (with the bounds and conditions evaluating the same
way on the updated mapping, as they do whenever they do not depend on the
validated key itself) returns that output unchanged. -/
theorem limits_snap_clamp_idempotent
    (key : String) (vminM vmaxM : LimitM) (closed : ClosedE) (dty : Dty)
    (dflt : PVal) (sub addk : List String) (conds : CndList) (kwargs : Kw)
    (q vlo vhi : ℚ)
    (hx : lookupKw kwargs key = some (.num q))
    (hall : allPresent
      (Vldtr.lim key vminM vmaxM closed dty dflt sub addk .snap conds).reqKeys
      kwargs = true)
    (hcond : checkConditions sub addk conds kwargs = .ok true)
    (hlo : vminM.eval dty kwargs = .ok (some vlo))
    (hhi : vmaxM.eval dty kwargs = .ok (some vhi))
    (hle : vlo ≤ vhi) :
    (q < vlo →
      (Vldtr.lim key vminM vmaxM closed dty dflt sub addk .snap conds).validate
        .cpass kwargs = .ok (.num vlo)) ∧
    (vhi < q →
      (Vldtr.lim key vminM vmaxM closed dty dflt sub addk .snap conds).validate
        .cpass kwargs = .ok (.num vhi)) ∧
    (vlo ≤ q → q ≤ vhi →
      (Vldtr.lim key vminM vmaxM closed dty dflt sub addk .snap conds).validate
        .cpass kwargs = .ok (.num (dty.coeQ q))) ∧
    (∀ y,
      (Vldtr.lim key vminM vmaxM closed dty dflt sub addk .snap conds).validate
        .cpass kwargs = .ok y →
      ∀ b, checkConditions sub addk conds (updateKw kwargs key y) = .ok b →
      vminM.eval dty (updateKw kwargs key y) = .ok (some vlo) →
      vmaxM.eval dty (updateKw kwargs key y) = .ok (some vhi) →
      (Vldtr.lim key vminM vmaxM closed dty dflt sub addk .snap conds).validate
        .cpass (updateKw kwargs key y) = .ok y) := by
  have hfixlo := evalLimit_fix vminM dty kwargs vlo hlo
  have hfixhi := evalLimit_fix vmaxM dty kwargs vhi hhi
  have heval := validate_snap_eval key vminM vmaxM closed dty dflt sub addk
    conds kwargs .cpass q vlo vhi hx hall hcond hlo hhi
  refine ⟨?_, ?_, ?_, ?_⟩
  · intro hqlo
    rw [heval, max_eq_right (coeQ_le_of_le_fix dty q vlo hfixlo (le_of_lt hqlo)),
      min_eq_left hle]
  · intro hqhi
    have h1 : vhi ≤ dty.coeQ q := le_coeQ_of_fix_le dty q vhi hfixhi (le_of_lt hqhi)
    rw [heval, min_eq_right (le_trans h1 (le_max_left _ _))]
  · intro h1 h2
    rw [heval, max_eq_left (le_coeQ_of_fix_le dty q vlo hfixlo h1),
      min_eq_left (coeQ_le_of_le_fix dty q vhi hfixhi h2)]
  · intro y hy b hb hlo' hhi'
    have hyy : y = .num (min (max (dty.coeQ q) vlo) vhi) := by
      rw [heval] at hy
      exact (Except.ok.injEq _ _ ).mp hy.symm
    subst hyy
    have hx' := lookupKw_updateKw_self kwargs key (.num (min (max (dty.coeQ q) vlo) vhi))
    have hall' := allPresent_updateKw _ kwargs key
      (.num (min (max (dty.coeQ q) vlo) vhi)) hall
    have hfixq : dty.coeQ (min (max (dty.coeQ q) vlo) vhi)
        = min (max (dty.coeQ q) vlo) vhi :=
      coeQ_fix_min dty _ _ (coeQ_fix_max dty _ _ (dty.coeQ_idem q) hfixlo) hfixhi
    have hylo : vlo ≤ min (max (dty.coeQ q) vlo) vhi :=
      le_min (le_max_right _ _) hle
    have hyhi : min (max (dty.coeQ q) vlo) vhi ≤ vhi := min_le_right _ _
    cases b with
    | false =>
      exact (validate_lim_condFalse key vminM vmaxM closed dty dflt sub addk
        .snap conds _ _ hx' hall' hb).1
    | true =>
      have h2 := validate_snap_eval key vminM vmaxM closed dty dflt sub addk
        conds _ .cpass _ vlo vhi hx' hall' hb hlo' hhi'
      rw [h2, hfixq, max_eq_left hylo, min_eq_left hyhi]

/-- Witness for C2: snapping `x=20` into `[0, 10]` gives `10`. -/
theorem limits_snap_clamp_idempotent_witness :
    (Vldtr.lim "x" (.const 0) (.const 10) .both .dfloat .pnone [] [] .snap
      .nil).validate .cpass [("x", .num 20)] = .ok (.num 10) := by
  have h := limits_snap_clamp_idempotent "x" (.const 0) (.const 10) .both
    .dfloat .pnone [] [] .nil [("x", .num 20)] 20 0 10
    (by rfl) (by rfl) (by rfl) (by rfl) (by rfl) (by norm_num)
  exact h.2.1 (by norm_num)

/-- **C5.** For any validator (`Limits` or `Values`) whose key is bound and
whose required kwargs are present, if the declared conditions are not all
satisfied then `validate(conditions='pass')` returns the original input
unchanged (no coercion, no enforcement) and `validate(conditions='raise')`
raises a condition-not-met error. -/
theorem validator_unmet_conditions (v : Vldtr) (kwargs : Kw) (x : PVal)
    (hx : lookupKw kwargs v.key = some x)
    (hall : allPresent v.reqKeys kwargs = true)
    (hcond : checkConditions v.subtract v.addKeys v.conds kwargs = .ok false) :
    v.validate .cpass kwargs = .ok x ∧
    v.validate .craise kwargs = .error .conditionError := by
  cases v with
  | lim key vmin vmax closed dty dflt sub addk enforce conds =>
    exact validate_lim_condFalse key vmin vmax closed dty dflt sub addk enforce
      conds kwargs x hx hall hcond
  | vals key values dty dflt enforce conds =>
    exact validate_vals_condFalse key values dty dflt enforce conds kwargs x
      hx hall hcond

/-- Witness for C5: a `Values` validator on `shld_type` conditioned on
`twltl ∈ {1}`, applied with `twltl=0`, passes the (otherwise invalid) value
through under `pass` and raises under `raise`. -/
theorem validator_unmet_conditions_witness :
    (Vldtr.vals "shld_type" [.str "paved"] .vnone .pnone .strict
        (CndList.cons "twltl" (.vset [.num 1]) .nil)).validate .cpass
        [("shld_type", .str "angle"), ("twltl", .num 0)] = .ok (.str "angle") ∧
    (Vldtr.vals "shld_type" [.str "paved"] .vnone .pnone .strict
        (CndList.cons "twltl" (.vset [.num 1]) .nil)).validate .craise
        [("shld_type", .str "angle"), ("twltl", .num 0)]
      = .error .conditionError :=
  validator_unmet_conditions
    (Vldtr.vals "shld_type" [.str "paved"] .vnone .pnone .strict
      (CndList.cons "twltl" (.vset [.num 1]) .nil))
    [("shld_type", .str "angle"), ("twltl", .num 0)] (.str "angle")
    (by rfl) (by rfl) (by rfl)

theorem updateKw_map_fst (l : Kw) (k : String) (v : PVal)
    (h : k ∈ l.map Prod.fst) :
    (updateKw l k v).map Prod.fst = l.map Prod.fst := by
  induction l with
  | nil => cases h
  | cons p rest ih =>
    by_cases hp : p.1 = k
    · simp [updateKw, hp]
    · have h' : k ∈ rest.map Prod.fst := by
        rw [List.map_cons] at h
        rcases List.mem_cons.mp h with h0 | h0
        · exact absurd h0.symm hp
        · exact h0
      simp [updateKw, hp, ih h']

theorem mem_updateKw_map_fst (l : Kw) (k : String) (v : PVal) :
    k ∈ (updateKw l k v).map Prod.fst := by
  induction l with
  | nil => simp [updateKw]
  | cons p rest ih =>
    by_cases hp : p.1 = k
    · simp [updateKw, hp]
    · simp only [updateKw, hp, if_false, List.map_cons, List.mem_cons]
      exact Or.inr ih

theorem applyValidatorList_map_fst (vl : List Vldtr) (key : String) :
    ∀ (validated out : Kw), key ∈ validated.map Prod.fst →
      applyValidatorList vl key validated = .ok out →
      out.map Prod.fst = validated.map Prod.fst := by
  induction vl with
  | nil =>
    intro validated out _ h
    simp only [applyValidatorList, Except.ok.injEq] at h
    rw [← h]
  | cons v rest ih =>
    intro validated out hkey h
    rw [applyValidatorList] at h
    cases h1 : v.validate .cpass validated with
    | error e =>
      rw [h1] at h
      exact Except.noConfusion h
    | ok x1 =>
      simp only [h1] at h
      have hk1 : (updateKw validated key x1).map Prod.fst
          = validated.map Prod.fst := updateKw_map_fst validated key x1 hkey
      have hkey1 : key ∈ (updateKw validated key x1).map Prod.fst :=
        mem_updateKw_map_fst validated key x1
      cases h2 : v.validate .craise (updateKw validated key x1) with
      | error e =>
        simp only [h2] at h
        rw [ih _ out hkey1 h, hk1]
      | ok x2 =>
        simp only [h2] at h
        have hk2 : (updateKw (updateKw validated key x1) key x2).map Prod.fst
            = (updateKw validated key x1).map Prod.fst :=
          updateKw_map_fst _ key x2 hkey1
        have hkey2 : key ∈ (updateKw (updateKw validated key x1) key x2).map Prod.fst :=
          mem_updateKw_map_fst _ key x2
        rw [ih _ out hkey2 h, hk2, hk1]

theorem modelValidateStep_map_fst (validators : List (String × List Vldtr))
    (validated out : Kw) (key : String) (arg : PVal)
    (hkey : key ∈ validated.map Prod.fst)
    (h : modelValidateStep validators validated key arg = .ok out) :
    out.map Prod.fst = validated.map Prod.fst := by
  unfold modelValidateStep at h
  cases hvs : lookupVs validators key with
  | none =>
    simp only [hvs, Except.ok.injEq] at h
    rw [← h]
    exact updateKw_map_fst validated key arg hkey
  | some vl =>
    simp only [hvs] at h
    cases happ : applyValidatorList vl key validated with
    | ok v' =>
      simp only [happ, Except.ok.injEq] at h
      rw [← h]
      exact applyValidatorList_map_fst vl key validated v' hkey happ
    | error e =>
      simp only [happ] at h
      by_cases hke : e.isKeyError
      · simp only [hke, if_true, Except.ok.injEq] at h
        rw [← h]
        exact updateKw_map_fst validated key arg hkey
      · simp only [hke] at h
        exact Except.noConfusion h

theorem modelValidateGo_map_fst (validators : List (String × List Vldtr)) :
    ∀ (entries : List (String × PVal)) (validated out : Kw),
      (∀ p ∈ entries, p.1 ∈ validated.map Prod.fst) →
      modelValidateGo validators entries validated = .ok out →
      out.map Prod.fst = validated.map Prod.fst := by
  intro entries
  induction entries with
  | nil =>
    intro validated out _ h
    simp only [modelValidateGo, Except.ok.injEq] at h
    rw [← h]
  | cons p rest ih =>
    intro validated out hmem h
    obtain ⟨key, arg⟩ := p
    simp only [modelValidateGo] at h
    cases hstep : modelValidateStep validators validated key arg with
    | error e => rw [hstep] at h; cases h
    | ok v' =>
      rw [hstep] at h
      have hkeys : v'.map Prod.fst = validated.map Prod.fst :=
        modelValidateStep_map_fst validators validated v' key arg
          (hmem (key, arg) (List.mem_cons_self _ _)) hstep
      have hmem' : ∀ q ∈ rest, q.1 ∈ v'.map Prod.fst := by
        intro q hq
        rw [hkeys]
        exact hmem q (List.mem_cons_of_mem _ hq)
      rw [ih v' out hmem' h, hkeys]

theorem lookupVs_filter_ne (validators : List (String × List Vldtr))
    (k k' : String) (h : k' ≠ k) :
    lookupVs (validators.filter (fun p => p.1 != k)) k' = lookupVs validators k' := by
  induction validators with
  | nil => rfl
  | cons p rest ih =>
    by_cases hp : p.1 = k
    · have hne : ¬ (p.1 = k') := by
        intro hh
        exact h (by rw [← hh, hp])
      have hfilter : List.filter (fun q => q.1 != k) (p :: rest)
          = List.filter (fun q => q.1 != k) rest := by
        simp [List.filter_cons, hp]
      rw [hfilter, ih]
      simp [lookupVs, List.find?, hne]
    · have hfilter : List.filter (fun q => q.1 != k) (p :: rest)
          = p :: List.filter (fun q => q.1 != k) rest := by
        simp [List.filter_cons, bne_iff_ne, hp]
      rw [hfilter]
      by_cases hp' : p.1 = k'
      · simp [lookupVs, List.find?, hp']
      · simp only [lookupVs, List.find?, hp'] at ih ⊢
        simpa [hp'] using ih

theorem modelValidateGo_filter (validators : List (String × List Vldtr))
    (k : String) :
    ∀ (entries : List (String × PVal)) (validated : Kw),
      (∀ p ∈ entries, p.1 ≠ k) →
      modelValidateGo (validators.filter (fun p => p.1 != k)) entries validated
        = modelValidateGo validators entries validated := by
  intro entries
  induction entries with
  | nil => intro validated _; rfl
  | cons p rest ih =>
    intro validated hne
    obtain ⟨key, arg⟩ := p
    have hk : key ≠ k := hne (key, arg) (List.mem_cons_self _ _)
    have hstep : modelValidateStep (validators.filter (fun p => p.1 != k))
        validated key arg = modelValidateStep validators validated key arg := by
      unfold modelValidateStep
      rw [lookupVs_filter_ne validators k key hk]
    simp only [modelValidateGo, hstep]
    cases modelValidateStep validators validated key arg with
    | ok v' => exact ih v' (fun q hq => hne q (List.mem_cons_of_mem _ hq))
    | error e => rfl

/-- **C10.** `Model.validate` returns a mapping with exactly the input's
keys (in order): no new keys are ever added, and removing the validators of
any parameter absent from the input changes nothing — such validators are
silently skipped and can raise no missing-input error. -/
theorem model_validate_keyset (validators : List (String × List Vldtr))
    (kwargs : Kw) :
    (∀ out, modelValidate validators kwargs = .ok out →
      out.map Prod.fst = kwargs.map Prod.fst) ∧
    (∀ k, k ∉ kwargs.map Prod.fst →
      modelValidate (validators.filter (fun p => p.1 != k)) kwargs
        = modelValidate validators kwargs) := by
  constructor
  · intro out h
    exact modelValidateGo_map_fst validators kwargs kwargs out
      (fun p hp => List.mem_map.mpr ⟨p, hp, rfl⟩) h
  · intro k hk
    exact modelValidateGo_filter validators k kwargs kwargs
      (fun p hp hpk => hk (List.mem_map.mpr ⟨p, hp, hpk⟩))

/-- Witness for C10: a two-key record against a model that registers a
strict validator for `a` and one for the absent parameter `zz`. -/
theorem model_validate_keyset_witness :
    modelValidate
        [("a", [Vldtr.vals "a" [.str "ok"] .vnone .pnone .strict .nil]),
         ("zz", [Vldtr.vals "zz" [.str "v"] .vnone .pnone .strict .nil])]
        [("a", .str "ok"), ("b", .str "t")]
      = .ok [("a", .str "ok"), ("b", .str "t")] ∧
    ([("a", PVal.str "ok"), ("b", PVal.str "t")].map Prod.fst
      = [("a", PVal.str "ok"), ("b", PVal.str "t")].map Prod.fst) ∧
    modelValidate
        (([("a", [Vldtr.vals "a" [.str "ok"] .vnone .pnone .strict .nil]),
          ("zz", [Vldtr.vals "zz" [.str "v"] .vnone .pnone .strict .nil])]).filter
          (fun p => p.1 != "zz"))
        [("a", .str "ok"), ("b", .str "t")]
      = modelValidate
        [("a", [Vldtr.vals "a" [.str "ok"] .vnone .pnone .strict .nil]),
         ("zz", [Vldtr.vals "zz" [.str "v"] .vnone .pnone .strict .nil])]
        [("a", .str "ok"), ("b", .str "t")] := by
  refine ⟨by rfl, ?_, ?_⟩
  · exact (model_validate_keyset
      [("a", [Vldtr.vals "a" [.str "ok"] .vnone .pnone .strict .nil]),
       ("zz", [Vldtr.vals "zz" [.str "v"] .vnone .pnone .strict .nil])]
      [("a", .str "ok"), ("b", .str "t")]).1
      [("a", .str "ok"), ("b", .str "t")] (by rfl)
  · exact (model_validate_keyset
      [("a", [Vldtr.vals "a" [.str "ok"] .vnone .pnone .strict .nil]),
       ("zz", [Vldtr.vals "zz" [.str "v"] .vnone .pnone .strict .nil])]
      [("a", .str "ok"), ("b", .str "t")]).2 "zz" (by simp)

/-- **C4.** `Reference.retrieve`: (1) if any declared level is missing from
the kwargs, it raises a key error naming all required levels and the
supplied keywords; (2) if all levels are supplied and descending by the
stringified level values reaches a subtree, that subtree is returned;
(3) if the descent fails at any step, it raises a reference error naming
the reference and the key path; and (4) a zero-level reference returns its
flat leaf data for every kwargs, ignoring them. -/
theorem reference_retrieve_spec (r : Reference) (kwargs : Kw) :
    ((∃ l ∈ r.levels, lookupKw kwargs l = Option.none) →
      r.retrieve kwargs = .error (.keyError r.levels (kwargs.map Prod.fst))) ∧
    (∀ t, r.data.descend (r.queryPath kwargs) = some t →
      (∀ l ∈ r.levels, (lookupKw kwargs l).isSome) →
      r.retrieve kwargs = .ok t) ∧
    ((∀ l ∈ r.levels, (lookupKw kwargs l).isSome) →
      r.data.descend (r.queryPath kwargs) = Option.none →
      r.retrieve kwargs = .error (.refError r.name (r.queryPath kwargs))) ∧
    (r.levels = [] → r.retrieve kwargs = .ok r.data) := by
  refine ⟨?_, ?_, ?_, ?_⟩
  · rintro ⟨l, hl, hnone⟩
    unfold Reference.retrieve
    have : ¬ (r.levels.all (fun l => (lookupKw kwargs l).isSome) = true) := by
      rw [List.all_eq_true]
      intro hall
      have := hall l hl
      rw [hnone] at this
      simp at this
    simp [this]
  · intro t hdesc hall
    unfold Reference.retrieve
    have hall' : r.levels.all (fun l => (lookupKw kwargs l).isSome) = true :=
      List.all_eq_true.mpr hall
    simp only [hall', if_true]
    unfold Reference.getitem
    rw [show (r.levels.map (fun l => ((lookupKw kwargs l).getD .pnone).pyStr))
      = r.queryPath kwargs from rfl, hdesc]
  · intro hall hdesc
    unfold Reference.retrieve
    have hall' : r.levels.all (fun l => (lookupKw kwargs l).isSome) = true :=
      List.all_eq_true.mpr hall
    simp only [hall', if_true]
    unfold Reference.getitem
    rw [show (r.levels.map (fun l => ((lookupKw kwargs l).getD .pnone).pyStr))
      = r.queryPath kwargs from rfl, hdesc]
  · intro hz
    unfold Reference.retrieve Reference.getitem
    simp [hz, RTree.descend]

/-- Witness for C4, exercising all four branches on concrete references. -/
theorem reference_retrieve_spec_witness :
    (Reference.mk "spf" ["severity"] (.node [("kabco", .val 1)])).retrieve []
      = .error (.keyError ["severity"] []) ∧
    (Reference.mk "spf" ["severity"] (.node [("kabco", .val 1)])).retrieve
        [("severity", .str "kabco")] = .ok (.val 1) ∧
    (Reference.mk "spf" ["severity"] (.node [("kabco", .val 1)])).retrieve
        [("severity", .str "zzz")]
      = .error (.refError "spf" ["zzz"]) ∧
    (Reference.mk "calibration" [] (.node [("cf", .val 1)])).retrieve
        [("x", .str "ignored")]
      = .ok (.node [("cf", .val 1)]) := by
  refine ⟨?_, ?_, ?_, ?_⟩
  · exact (reference_retrieve_spec
      (Reference.mk "spf" ["severity"] (.node [("kabco", .val 1)])) []).1
      ⟨"severity", by simp, by rfl⟩
  · exact (reference_retrieve_spec
      (Reference.mk "spf" ["severity"] (.node [("kabco", .val 1)]))
      [("severity", .str "kabco")]).2.1 (.val 1) (by rfl)
      (by intro l hl; simp at hl; subst hl; rfl)
  · exact (reference_retrieve_spec
      (Reference.mk "spf" ["severity"] (.node [("kabco", .val 1)]))
      [("severity", .str "zzz")]).2.2.1
      (by intro l hl; simp at hl; subst hl; rfl) (by rfl)
  · exact (reference_retrieve_spec
      (Reference.mk "calibration" [] (.node [("cf", .val 1)]))
      [("x", .str "ignored")]).2.2.2 rfl

/-- **C3.** The first conversion follows the spec's formula
`value * (to/from) = 1 * (3/2)`, but `modify` keeps the original parent, so
the converted result still carries composition `{severity:'a'}`; the second
conversion therefore multiplies by `retrieve('a')/retrieve('a') = 1`, and
the round trip returns `3/2`, not the original value `1` — the code
violates the claimed round-trip identity at this input. -/
theorem resop_convert_roundtrip_bug :
    resA.convert refSev [("severity", .str "b")]
      = .ok ⟨1 * (3 / 2), ⟨[("severity", .str "a")]⟩⟩ ∧
    resRoundTrip = .ok ⟨1 * (3 / 2) * (2 / 2), ⟨[("severity", .str "a")]⟩⟩ ∧
    (1 * ((3 : ℚ) / 2) * (2 / 2) = 3 / 2) ∧
    resA.value = 1 ∧
    ¬ ((3 : ℚ) / 2 = 1) := by
  have h1 : resA.convert refSev [("severity", .str "b")]
      = .ok ⟨1 * (3 / 2), ⟨[("severity", .str "a")]⟩⟩ := by
    rfl
  refine ⟨h1, ?_, by norm_num, rfl, by norm_num⟩
  show resRoundTrip = _
  unfold resRoundTrip
  rw [h1]
  rfl

theorem addLayerColl_ne_locked (coll : List (ℤ × LayerSt)) (name? : Option LLabel) :
    addLayerColl coll name? ≠ .error .modelLocked := by
  simp only [addLayerColl]
  split
  · intro h
    injection h with h'
    exact MErr.noConfusion h'
  · intro h
    exact Except.noConfusion h

/-- **C6.** On a locked model, `add_layer`, `add_reference`,
`add_validator` and the per-kind element registrars all raise the
locked-state error and leave the model unchanged (so all structural counts
are unchanged); `unlock()` clears the flag, after which the same calls no
longer raise the locked-state error (`add_validator`/`add_reference` then
succeed outright). -/
theorem locked_model_rejects_mutation (m : ModelSt) (hlock : m.locked = true)
    (name? : Option LLabel) (obj : Reference) (v : Vldtr) (ename : String) :
    (m.addLayer name? = .error .modelLocked ∧
      runMut (fun mm => mm.addLayer name?) m = m) ∧
    (m.addReference obj = .error .modelLocked ∧
      runMut (fun mm => mm.addReference obj) m = m) ∧
    (m.addValidator v = .error .modelLocked ∧
      runMut (fun mm => mm.addValidator v) m = m) ∧
    (m.addElement ename = .error .modelLocked ∧
      runMut (fun mm => mm.addElement ename) m = m) ∧
    ((runMut (fun mm => mm.addLayer name?) m).numLayers = m.numLayers ∧
      (runMut (fun mm => mm.addElement ename) m).numElements = m.numElements ∧
      (runMut (fun mm => mm.addValidator v) m).numValidators = m.numValidators ∧
      (runMut (fun mm => mm.addReference obj) m).numReferences = m.numReferences) ∧
    ((m.unlock).locked = false ∧
      (m.unlock).addValidator v
        = .ok (ModelSt.mk false m.layers m.references m.refs
            (addValidatorColl m.validators v)) ∧
      (m.unlock).addReference obj
        = .ok (ModelSt.mk false m.layers (addReferenceColl m.references obj)
            (m.refs ++ [obj]) m.validators) ∧
      (m.unlock).addLayer name? ≠ .error .modelLocked ∧
      (m.unlock).addElement ename ≠ .error .modelLocked) := by
  have hcl : m.checkLock = .error .modelLocked := by
    unfold ModelSt.checkLock
    rw [hlock]
    rfl
  have hcl' : (m.unlock).checkLock = .ok () := by
    unfold ModelSt.checkLock ModelSt.unlock
    rfl
  have hLayer : m.addLayer name? = .error .modelLocked := by
    unfold ModelSt.addLayer; rw [hcl]
  have hRef : m.addReference obj = .error .modelLocked := by
    unfold ModelSt.addReference; rw [hcl]
  have hVal : m.addValidator v = .error .modelLocked := by
    unfold ModelSt.addValidator; rw [hcl]
  have hElem : m.addElement ename = .error .modelLocked := by
    unfold ModelSt.addElement; rw [hcl]
  refine ⟨⟨hLayer, ?_⟩, ⟨hRef, ?_⟩, ⟨hVal, ?_⟩, ⟨hElem, ?_⟩, ⟨?_, ?_, ?_, ?_⟩,
    ?_, ?_, ?_, ?_, ?_⟩
  · simp [runMut, hLayer]
  · simp [runMut, hRef]
  · simp [runMut, hVal]
  · simp [runMut, hElem]
  · simp [runMut, hLayer]
  · simp [runMut, hElem]
  · simp [runMut, hVal]
  · simp [runMut, hRef]
  · rfl
  · unfold ModelSt.addValidator
    rw [hcl']
    rfl
  · unfold ModelSt.addReference
    rw [hcl']
    rfl
  · unfold ModelSt.addLayer
    rw [hcl']
    cases haddl : addLayerColl (m.unlock).layers name? with
    | error e =>
      simp only [haddl]
      intro h
      injection h with h'
      exact addLayerColl_ne_locked (m.unlock).layers name? (h' ▸ haddl)
    | ok coll =>
      simp only [haddl]
      intro h
      exact Except.noConfusion h
  · unfold ModelSt.addElement
    rw [hcl']
    cases hlast : (m.unlock).layers.getLast? with
    | none =>
      simp only [hlast]
      intro h
      injection h with h'
      exact MErr.noConfusion h'
    | some p =>
      simp only [hlast]
      intro h
      exact Except.noConfusion h

/-- Witness for C6: a concrete locked model rejects a layer registration
and is left unchanged. -/
theorem locked_model_rejects_mutation_witness :
    (ModelSt.mk true [] [] [] []).addLayer (some (.str "l1"))
      = .error .modelLocked ∧
    runMut (fun mm => mm.addLayer (some (.str "l1"))) (ModelSt.mk true [] [] [] [])
      = ModelSt.mk true [] [] [] [] :=
  (locked_model_rejects_mutation (ModelSt.mk true [] [] [] []) rfl
    (some (.str "l1")) (Reference.mk "cal" [] (.val 1))
    (Vldtr.vals "a" [.str "ok"] .vnone .pnone .strict .nil) "spf_kabco").1

/-- **C9 (code evaluated at the failing input).** Registering two layers
both named `"a"` on a fresh model raises no error — the duplicate-name
check compares the name against the collection's integer index keys, so a
repeated string name is silently accepted — and registering two references
with the same name silently replaces the first with the second. -/
theorem duplicate_layer_and_reference_names_accepted :
    (ModelSt.mk false [] [] [] []).addLayer (some (.str "a"))
      = .ok (ModelSt.mk false [((0 : ℤ), ⟨.str "a", []⟩)] [] [] []) ∧
    (ModelSt.mk false [((0 : ℤ), ⟨.str "a", []⟩)] [] [] []).addLayer
        (some (.str "a"))
      = .ok (ModelSt.mk false
          [((0 : ℤ), ⟨.str "a", []⟩), ((1 : ℤ), ⟨.str "a", []⟩)] [] [] []) ∧
    ((ModelSt.mk false
        [((0 : ℤ), ⟨.str "a", []⟩), ((1 : ℤ), ⟨.str "a", []⟩)] [] [] []).layers.map
      (fun p => p.2.name)) = [.str "a", .str "a"] ∧
    (ModelSt.mk false [] [] [] []).addReference
        (Reference.mk "cal" [] (.val 1))
      = .ok (ModelSt.mk false []
          [("cal", Reference.mk "cal" [] (.val 1))]
          [Reference.mk "cal" [] (.val 1)] []) ∧
    (ModelSt.mk false []
        [("cal", Reference.mk "cal" [] (.val 1))]
        [Reference.mk "cal" [] (.val 1)] []).addReference
        (Reference.mk "cal" [] (.val 2))
      = .ok (ModelSt.mk false []
          [("cal", Reference.mk "cal" [] (.val 2))]
          [Reference.mk "cal" [] (.val 1), Reference.mk "cal" [] (.val 2)] []) := by
  refine ⟨by rfl, by rfl, by rfl, by rfl, by rfl⟩

/-- Witness for C1: on a concrete three-layer model, the third-layer
element's final binding is its function applied to the namespace of the
first two layers, and the raw input key survives. -/
theorem layer_evaluation_protocol_witness :
    lcEvaluate wLayers wInput "c"
      = some (wC.fn (lcEvaluate (wLayers.take 2) wInput)) ∧
    (lcEvaluate wLayers wInput "x").isSome := by
  have h := layer_evaluation_protocol wLayers wInput (by decide)
  constructor
  · exact h.2.2 2 (by decide) wC (List.mem_cons_self wC [])
  · exact h.1 "x" (by simp [wInput])

/-- **C8 (counterexample).** With two `Result` elements registered in the
order `pred_kabco, exp_kabco`, the enumeration `[exp_kabco, pred_kabco]`
is a legitimate Python set order, and the results view it produces lists
the keys in the opposite of registration order — so the claimed equality
of iteration order with registration order fails. -/
theorem prediction_res_order_counterexample :
    IsPySetList (regElements [[⟨"pred_kabco", .result⟩, ⟨"exp_kabco", .result⟩]])
      [⟨"exp_kabco", .result⟩, ⟨"pred_kabco", .result⟩] ∧
    (predRes [⟨"exp_kabco", .result⟩, ⟨"pred_kabco", .result⟩] dataW).map Prod.fst
      = ["exp_kabco", "pred_kabco"] ∧
    (predRes (regElements [[⟨"pred_kabco", .result⟩, ⟨"exp_kabco", .result⟩]])
        dataW).map Prod.fst = ["pred_kabco", "exp_kabco"] ∧
    ¬ ((predRes [⟨"exp_kabco", .result⟩, ⟨"pred_kabco", .result⟩] dataW).map Prod.fst
      = (predRes (regElements [[⟨"pred_kabco", .result⟩, ⟨"exp_kabco", .result⟩]])
          dataW).map Prod.fst) := by
  refine ⟨by decide, by rfl, by rfl, by decide⟩

/-- **C8 (amended).** For any model whose element names are distinct, the
results view contains exactly the `Result`-kind elements' outputs, keyed by
element name with values drawn from the evaluated data — as a permutation
of the registration-order result entries — but its iteration order is the
unspecified Python set order, not necessarily the registration order. -/
theorem prediction_res_content (orig enum : List PE) (data : String → Option ℚ)
    (hnd : (orig.map (·.name)).Nodup) (hset : IsPySetList orig enum) :
    (predRes enum data).Perm (predRes orig data) := by
  obtain ⟨hndE, hsub, hcover⟩ := hset
  have hperm : enum.Perm orig := by
    have hndE' : enum.Nodup := hndE.of_map
    have hndO : orig.Nodup := hnd.of_map
    rw [List.perm_ext_iff_of_nodup hndE' hndO]
    intro e
    constructor
    · exact hsub e
    · intro he
      rcases hcover e he with ⟨e2, he2, hname⟩
      have he2o : e2 ∈ orig := hsub e2 he2
      have : e2 = e := by
        have := List.inj_on_of_nodup_map hnd
        exact this he2o he hname
      rw [← this]
      exact he2
  exact (hperm.filter _).map _

/-- Witness for C8's amended theorem on the concrete two-element model. -/
theorem prediction_res_content_witness :
    (predRes [⟨"exp_kabco", .result⟩, ⟨"pred_kabco", .result⟩] dataW).Perm
      (predRes (regElements [[⟨"pred_kabco", .result⟩, ⟨"exp_kabco", .result⟩]])
        dataW) :=
  prediction_res_content
    (regElements [[⟨"pred_kabco", .result⟩, ⟨"exp_kabco", .result⟩]])
    [⟨"exp_kabco", .result⟩, ⟨"pred_kabco", .result⟩] dataW
    (by decide) (by decide)

theorem af_lane_width_at : af_lane_width 12 5000 = 1 := by
  norm_num [af_lane_width]

theorem af_shld_at : af_shld 5000 8 .paved = 46269 / 50000 := by
  norm_num [af_shld]

theorem af_hor_curve_at : af_hor_curve 1 0 0 0 = 1 := by
  norm_num [af_hor_curve]

theorem af_se_var_at : af_se_var 0 = 1 := by
  norm_num [af_se_var]

theorem af_grade_at : af_grade 0 = 1 := by
  norm_num [af_grade]

theorem af_dwy_density_at : af_dwy_density 5000 1 0 = 1 := by
  norm_num [af_dwy_density]

theorem af_rumble_cl_at : af_rumble_cl 0 = 1 := by
  norm_num [af_rumble_cl]

theorem af_passing_lanes_at : af_passing_lanes 0 = 1 := by
  norm_num [af_passing_lanes]

theorem af_twltl_at : af_twltl 0 1 0 = 1 := by
  norm_num [af_twltl]

theorem af_rhr_at : af_rhr 3 = 1 := by
  unfold af_rhr
  have harg : (-0.6869 + (0.0668 * ((3 : ℚ) : ℝ)) : ℝ) = -0.4865 := by
    norm_num
  rw [harg]
  exact div_self (Real.exp_ne_zero _)

theorem af_lighting_at : af_lighting 0 = 1 := by
  norm_num [af_lighting]

theorem af_ase_at : af_ase 0 = 1 := by
  norm_num [af_ase]

theorem rtl_af_total_at_eq : rtl_af_total_at = 46269 / 50000 := by
  unfold rtl_af_total_at af_total
  rw [af_lane_width_at, af_shld_at, af_hor_curve_at, af_se_var_at, af_grade_at,
    af_dwy_density_at, af_rumble_cl_at, af_passing_lanes_at, af_twltl_at,
    af_rhr_at, af_lighting_at, af_ase_at]
  push_cast
  ring

/-- **C7 (counterexample).** At the claim's input record, `af_total` is not
`1.00`: the 8-ft paved shoulder with `aadt=5000 > 2000` gives
`af_shld = (1.00·0.87 − 1)·0.574 + 1 = 0.92538` (HSM Table 10-9's base
shoulder width is 6 ft, so 8 ft is not a base condition), and every other
adjustment factor is exactly 1. -/
theorem rtl_af_total_not_one :
    rtl_af_total_at = 46269 / 50000 ∧ rtl_af_total_at ≠ 1 := by
  refine ⟨rtl_af_total_at_eq, ?_⟩
  rw [rtl_af_total_at_eq]
  norm_num

/-- **C7 (amended).** At the claim's input record, whatever values the
`spf` and `calibration` reference tables supply for `a`, `b`, `cf` and
`k`: `af_total` equals exactly `0.92538`; `pred_kabco` equals
`spf_kabco * cf_total * af_total` (with `num_years = 1`); and `exp_kabco`
equals `-1` because `obs_kabco == -1` skips the Empirical Bayes branch. -/
theorem rtl_record_evaluation (a b cf cfc k : ℝ) :
    rtl_af_total_at = 46269 / 50000 ∧
    pred_kabco (spf_kabco 5000 1 a b cf) rtl_af_total_at (cf_total cfc) 1
      = spf_kabco 5000 1 a b cf * cf_total cfc * rtl_af_total_at ∧
    exp_kabco (-1)
        (pred_kabco (spf_kabco 5000 1 a b cf) rtl_af_total_at (cf_total cfc) 1)
        k 1 1 = -1 := by
  refine ⟨rtl_af_total_at_eq, ?_, ?_⟩
  · unfold pred_kabco cf_total
    ring
  · unfold exp_kabco
    simp

end Cpm
